import Mathlib

/-
Verification of the vscode-native-debug-launcher extension core
(src/extension.ts): the URI-handler pipeline of handleDebugUri, the
platform-to-debugger mapping detectDebugger, the debug-configuration
construction, the auto-continue listener registered after a successful
session start, and the wire encoding of the launch request.

Modelling conventions:
- A JavaScript string is a list of Unicode code points (Str := List Nat);
  a byte buffer is a list of byte values (Nat < 256).
- Library functions used by the source (Buffer.from base64 decoding,
  Buffer.toString UTF-8 decoding, JSON.parse, path.isAbsolute, path.join,
  path.basename, URLSearchParams) are modelled explicitly below; path
  functions follow POSIX semantics, matching the examples in the spec.
- The handler is a pure function of an explicit host environment
  (open workspace, process.platform, the set of existing filesystem
  paths, the result of vscode.debug.startDebugging) and of the payload
  query parameter; its result records the outcome and the list of
  startDebugging calls issued.
- The auto-continue listener is a transition system over the events it
  can observe (session-changed events, timer expiry of the 500 ms
  setTimeout, resolution of the customRequest continue promise).
-/

abbrev Str := List Nat

/-- Code points of a Lean string literal, used to write Str constants. -/
def str (s : String) : Str := s.data.map Char.toNat

/-- A Unicode scalar value (excludes the surrogate range). -/
def ScalarCode (c : Nat) : Prop := c < 0xD800 ∨ (0xE000 ≤ c ∧ c < 0x110000)

instance : DecidablePred ScalarCode := fun _ => by unfold ScalarCode; infer_instance

/-- All code points of a string are Unicode scalar values. -/
def ValidStr (s : Str) : Prop := ∀ c ∈ s, ScalarCode c

instance : DecidablePred ValidStr := fun _ => List.decidableBAll _ _

/-! ### Base64 (standard alphabet, as used by the wire format and by
Buffer.from(payload64, "base64") in handleDebugUri) -/

/-- Character of the standard base64 alphabet for a 6-bit value. -/
def b64char (n : Nat) : Nat :=
  if n < 26 then 65 + n
  else if n < 52 then 71 + n
  else if n < 62 then n - 4
  else if n = 62 then 43
  else 47

/-- 6-bit value of a standard base64 alphabet character. -/
def b64val (c : Nat) : Option Nat :=
  if 65 ≤ c ∧ c ≤ 90 then some (c - 65)
  else if 97 ≤ c ∧ c ≤ 122 then some (c - 71)
  else if 48 ≤ c ∧ c ≤ 57 then some (c + 4)
  else if c = 43 then some 62
  else if c = 47 then some 63
  else none

/-- Standard base64 encoding of a byte sequence (with padding). -/
def b64encodeBytes : List Nat → Str
  | [] => []
  | [a] => [b64char (a / 4), b64char (a % 4 * 16), 61, 61]
  | [a, b] => [b64char (a / 4), b64char (a % 4 * 16 + b / 16), b64char (b % 16 * 4), 61]
  | a :: b :: c :: rest =>
      b64char (a / 4) :: b64char (a % 4 * 16 + b / 16) ::
      b64char (b % 16 * 4 + c / 64) :: b64char (c % 64) :: b64encodeBytes rest

/-- Base64 decoding to a byte sequence.  Inputs rejected here make the
decode step of handleDebugUri fail; Node's decoder is more lenient, but
every input it accepts that this model rejects still fails JSON parsing
afterwards, so the handler outcome is the same decode-step failure. -/
def b64decode : Str → Option (List Nat)
  | [] => some []
  | c1 :: c2 :: c3 :: c4 :: rest =>
    match b64val c1, b64val c2 with
    | some s1, some s2 =>
      if c3 = 61 then
        (if c4 = 61 ∧ rest = [] then some [s1 * 4 + s2 / 16] else none)
      else
        match b64val c3 with
        | some s3 =>
          if c4 = 61 then
            (if rest = [] then some [s1 * 4 + s2 / 16, s2 % 16 * 16 + s3 / 4] else none)
          else
            match b64val c4 with
            | some s4 =>
                (b64decode rest).map
                  (fun bs => (s1 * 4 + s2 / 16) :: (s2 % 16 * 16 + s3 / 4) :: (s3 % 4 * 64 + s4) :: bs)
            | none => none
        | none => none
    | _, _ => none
  | _ => none

/-! ### UTF-8 decoding (Buffer.toString("utf-8"): lossy, never throws;
invalid sequences become U+FFFD) -/

/-- Continuation byte test. -/
def utf8cont (b : Nat) : Prop := 0x80 ≤ b ∧ b < 0xC0

instance : DecidablePred utf8cont := fun _ => by unfold utf8cont; infer_instance

/-- Lossy UTF-8 decoding (fuelled; each step consumes at least one byte,
so fuel = length suffices). -/
def utf8DecodeAux : Nat → List Nat → Str
  | 0, _ => []
  | _ + 1, [] => []
  | fuel + 1, b :: r =>
    if b < 0x80 then b :: utf8DecodeAux fuel r
    else if 0xC2 ≤ b ∧ b < 0xE0 then
      match r with
      | b2 :: r2 =>
        if utf8cont b2 then ((b - 0xC0) * 0x40 + (b2 - 0x80)) :: utf8DecodeAux fuel r2
        else 0xFFFD :: utf8DecodeAux fuel r
      | [] => [0xFFFD]
    else if 0xE0 ≤ b ∧ b < 0xF0 then
      match r with
      | b2 :: b3 :: r3 =>
        if utf8cont b2 ∧ utf8cont b3 then
          let u := (b - 0xE0) * 0x1000 + (b2 - 0x80) * 0x40 + (b3 - 0x80)
          if 0x800 ≤ u ∧ ScalarCode u then u :: utf8DecodeAux fuel r3
          else 0xFFFD :: utf8DecodeAux fuel r
        else 0xFFFD :: utf8DecodeAux fuel r
      | _ => 0xFFFD :: utf8DecodeAux fuel r
    else if 0xF0 ≤ b ∧ b < 0xF5 then
      match r with
      | b2 :: b3 :: b4 :: r4 =>
        if utf8cont b2 ∧ utf8cont b3 ∧ utf8cont b4 then
          let u := (b - 0xF0) * 0x40000 + (b2 - 0x80) * 0x1000 + (b3 - 0x80) * 0x40 + (b4 - 0x80)
          if 0x10000 ≤ u ∧ u < 0x110000 then u :: utf8DecodeAux fuel r4
          else 0xFFFD :: utf8DecodeAux fuel r
        else 0xFFFD :: utf8DecodeAux fuel r
      | _ => 0xFFFD :: utf8DecodeAux fuel r
    else 0xFFFD :: utf8DecodeAux fuel r

/-- Lossy UTF-8 decoding of a byte sequence to code points, modelling
Buffer.toString("utf-8").  Replacement-character placement for invalid
sequences approximates the WHATWG algorithm; the handler only ever
reaches this on the raw bytes of the base64-decoded payload, and every
claim below exercises it on ASCII bytes only, where it is the identity. -/
def utf8Decode (s : List Nat) : Str := utf8DecodeAux s.length s

/-! ### JSON values and JSON.parse -/

/-- In-memory JSON value, as produced by JSON.parse.  Numbers are kept
exactly as mantissa and decimal exponent. -/
inductive Json where
  | null
  | bool (b : Bool)
  | num (m : Int) (e : Int)
  | str (s : Str)
  | arr (xs : List Json)
  | obj (fields : List (Str × Json))

/-- JavaScript truthiness of a JSON.parse result (null, false, 0 and the
empty string are falsy; arrays and objects are always truthy). -/
def truthy : Json → Bool
  | .null => false
  | .bool b => b
  | .num m _ => decide (m ≠ 0)
  | .str s => decide (s ≠ [])
  | .arr _ => true
  | .obj _ => true

/-- Property lookup on an object: the last binding wins, as later keys
overwrite earlier ones in JSON.parse. -/
def lookupLast : List (Str × Json) → Str → Option Json
  | [], _ => none
  | (k, v) :: rest, key =>
    match lookupLast rest key with
    | some r => some r
    | none => if k = key then some v else none

/-- JavaScript property access payload.key on a non-null value: fields of
an object, undefined (none) on every other value. -/
def Json.lookupField : Json → Str → Option Json
  | .obj fs, k => lookupLast fs k
  | _, _ => none

/-- Truthiness of a possibly-undefined property (undefined is falsy). -/
def truthyOpt : Option Json → Bool
  | none => false
  | some j => truthy j

/-- Array.isArray of a possibly-undefined property. -/
def isArrayOpt : Option Json → Bool
  | some (.arr _) => true
  | _ => false

/-- JSON whitespace skipping. -/
def skipWs : Str → Str
  | [] => []
  | c :: r => if c = 32 ∨ c = 9 ∨ c = 10 ∨ c = 13 then skipWs r else c :: r

/-- Value of a hex digit character. -/
def hexVal (c : Nat) : Option Nat :=
  if 48 ≤ c ∧ c ≤ 57 then some (c - 48)
  else if 97 ≤ c ∧ c ≤ 102 then some (c - 87)
  else if 65 ≤ c ∧ c ≤ 70 then some (c - 55)
  else none

/-- Value of a 4-hex-digit escape. -/
def hexVal4 (h1 h2 h3 h4 : Nat) : Option Nat :=
  match hexVal h1, hexVal h2, hexVal h3, hexVal h4 with
  | some v1, some v2, some v3, some v4 => some (((v1 * 16 + v2) * 16 + v3) * 16 + v4)
  | _, _, _, _ => none

/-- Code point of a short JSON escape character. -/
def escCode (e : Nat) : Option Nat :=
  if e = 34 then some 34
  else if e = 92 then some 92
  else if e = 47 then some 47
  else if e = 98 then some 8
  else if e = 102 then some 12
  else if e = 110 then some 10
  else if e = 114 then some 13
  else if e = 116 then some 9
  else none

/-- Body of a JSON string literal after the opening quote: returns the
decoded UTF-16 code units and the input after the closing quote. -/
def parseStringBody : Str → Option (Str × Str)
  | [] => none
  | c :: r =>
    if c = 34 then some ([], r)
    else if c = 92 then
      match r with
      | 117 :: h1 :: h2 :: h3 :: h4 :: r2 =>
        match hexVal4 h1 h2 h3 h4 with
        | none => none
        | some u => (parseStringBody r2).map (fun p => (u :: p.1, p.2))
      | e :: r2 =>
        match escCode e with
        | some c2 => (parseStringBody r2).map (fun p => (c2 :: p.1, p.2))
        | none => none
      | [] => none
    else if 32 ≤ c then (parseStringBody r).map (fun p => (c :: p.1, p.2))
    else none

/-- Combination of UTF-16 surrogate pairs into code points, as a
JavaScript string holds the parsed value; a lone surrogate is kept
as its code unit, as JSON.parse does. -/
def combineSurrogates : Str → Str
  | [] => []
  | [u] => [u]
  | u :: v :: rest =>
    if 0xD800 ≤ u ∧ u < 0xDC00 then
      if 0xDC00 ≤ v ∧ v < 0xE000 then
        (0x10000 + (u - 0xD800) * 0x400 + (v - 0xDC00)) :: combineSurrogates rest
      else u :: combineSurrogates (v :: rest)
    else u :: combineSurrogates (v :: rest)

/-- Longest prefix of decimal digits, as digit values. -/
def takeDigits : Str → (List Nat × Str)
  | [] => ([], [])
  | c :: r =>
    if 48 ≤ c ∧ c ≤ 57 then
      match takeDigits r with
      | (ds, rest) => ((c - 48) :: ds, rest)
    else ([], c :: r)

/-- Numeric value of a digit sequence. -/
def digitsVal (ds : List Nat) : Nat := ds.foldl (fun acc d => acc * 10 + d) 0

/-- Exponent part of a JSON number after the e/E. -/
def expPart (s : Str) : Option (Int × Str) :=
  match (match s with
         | 43 :: r => ((1 : Int), r)
         | 45 :: r => ((-1 : Int), r)
         | _ => ((1 : Int), s)) with
  | (sg, s1) =>
    match takeDigits s1 with
    | ([], _) => none
    | (ds, s2) => some (sg * (digitsVal ds : Int), s2)

/-- JSON number literal (sign, integer part, fraction, exponent), as an
exact mantissa/exponent pair.  (Leading-zero restrictions of the JSON
grammar are not enforced; no claim depends on them.) -/
def parseNumber (s : Str) : Option (Json × Str) :=
  match (match s with | 45 :: r => (true, r) | _ => (false, s)) with
  | (neg, s1) =>
    match takeDigits s1 with
    | ([], _) => none
    | (ids, s2) =>
      match (match s2 with
             | 46 :: r2 =>
               (match takeDigits r2 with
                | ([], _) => none
                | (fds, s3) => some (fds, s3))
             | _ => some (([] : List Nat), s2)) with
      | none => none
      | some (fds, s3) =>
        match (match s3 with
               | 101 :: r3 => expPart r3
               | 69 :: r3 => expPart r3
               | _ => some ((0 : Int), s3)) with
        | none => none
        | some (ev, s4) =>
          some (.num ((if neg then (-1 : Int) else 1) * (digitsVal (ids ++ fds) : Int))
                     (ev - (fds.length : Int)), s4)

mutual

/-- One JSON value and the remaining input (fuelled recursion). -/
def parseValue : Nat → Str → Option (Json × Str)
  | 0, _ => none
  | fuel + 1, s =>
    match skipWs s with
    | [] => none
    | c :: r =>
      if c = 110 then
        match r with
        | 117 :: 108 :: 108 :: r2 => some (.null, r2)
        | _ => none
      else if c = 116 then
        match r with
        | 114 :: 117 :: 101 :: r2 => some (.bool true, r2)
        | _ => none
      else if c = 102 then
        match r with
        | 97 :: 108 :: 115 :: 101 :: r2 => some (.bool false, r2)
        | _ => none
      else if c = 34 then
        (parseStringBody r).map (fun p => (.str (combineSurrogates p.1), p.2))
      else if c = 91 then
        match skipWs r with
        | 93 :: r2 => some (.arr [], r2)
        | r2 => parseElems fuel r2 []
      else if c = 123 then
        match skipWs r with
        | 125 :: r2 => some (.obj [], r2)
        | r2 => parseMembers fuel r2 []
      else if c = 45 ∨ (48 ≤ c ∧ c ≤ 57) then parseNumber (c :: r)
      else none

/-- Comma-separated array elements up to the closing bracket. -/
def parseElems : Nat → Str → List Json → Option (Json × Str)
  | 0, _, _ => none
  | fuel + 1, s, acc =>
    match parseValue fuel s with
    | none => none
    | some (j, r) =>
      match skipWs r with
      | 44 :: r2 => parseElems fuel r2 (acc ++ [j])
      | 93 :: r2 => some (.arr (acc ++ [j]), r2)
      | _ => none

/-- Comma-separated object members up to the closing brace. -/
def parseMembers : Nat → Str → List (Str × Json) → Option (Json × Str)
  | 0, _, _ => none
  | fuel + 1, s, acc =>
    match skipWs s with
    | 34 :: r =>
      match parseStringBody r with
      | none => none
      | some (k, r2) =>
        match skipWs r2 with
        | 58 :: r3 =>
          match parseValue fuel r3 with
          | none => none
          | some (j, r4) =>
            match skipWs r4 with
            | 44 :: r5 => parseMembers fuel r5 (acc ++ [(combineSurrogates k, j)])
            | 125 :: r5 => some (.obj (acc ++ [(combineSurrogates k, j)]), r5)
            | _ => none
        | _ => none
    | _ => none

end

/-- JSON.parse: one value, optionally surrounded by whitespace; anything
else is a SyntaxError (none). -/
def jsonParse (s : Str) : Option Json :=
  match parseValue (s.length + 1) s with
  | some (j, rest) => if skipWs rest = [] then some j else none
  | none => none

/-! ### The JSON wire encoder (Request Encoder side)

Modelled from the spec: the command-line Request Encoder (app/code-dbg.py,
not part of the sources) serializes the LaunchRequest as the UTF-8 JSON
document with fields exe, args, cwd and applies standard base64 — the
exact shape required by the wire-format contract in the spec.  The
serializer below emits ASCII-only JSON (non-ASCII and control characters
as \uXXXX escapes, astral code points as surrogate pairs), as Python's
json.dumps does by default. -/

/-- Lowercase hex digit character of a value below 16. -/
def hexDigit (n : Nat) : Nat := if n < 10 then 48 + n else 87 + n

/-- Four hex digits (lowercase) of a 16-bit value. -/
def hex4 (u : Nat) : Str :=
  [hexDigit (u / 4096 % 16), hexDigit (u / 256 % 16), hexDigit (u / 16 % 16), hexDigit (u % 16)]

/-- JSON escaping of one code point inside a string literal. -/
def escapeChar (c : Nat) : Str :=
  if c = 34 then [92, 34]
  else if c = 92 then [92, 92]
  else if 32 ≤ c ∧ c < 127 then [c]
  else if c < 0x10000 then 92 :: 117 :: hex4 c
  else 92 :: 117 :: hex4 (0xD800 + (c - 0x10000) / 0x400)
       ++ 92 :: 117 :: hex4 (0xDC00 + (c - 0x10000) % 0x400)

/-- JSON escaping of a string's code points. -/
def jsonEscape : Str → Str
  | [] => []
  | c :: r => escapeChar c ++ jsonEscape r

/-- A JSON string literal including its quotes. -/
def jstr (s : Str) : Str := 34 :: (jsonEscape s ++ [34])

/-- The launch request carried by the URL (interface DebugPayload in
extension.ts; LaunchRequest in the spec). -/
structure DebugPayload where
  exe : Str
  args : List Str
  cwd : Str
deriving DecidableEq

/-- A valid LaunchRequest: non-empty executable and working directory,
all strings made of Unicode scalar values. -/
def ValidRequest (r : DebugPayload) : Prop :=
  r.exe ≠ [] ∧ r.cwd ≠ [] ∧ ValidStr r.exe ∧ ValidStr r.cwd ∧ ∀ a ∈ r.args, ValidStr a

instance : DecidablePred ValidRequest := fun r => by
  unfold ValidRequest
  exact instDecidableAnd

/-- Serialized args array content (elements separated by commas). -/
def serializeArgs : List Str → Str
  | [] => []
  | [a] => jstr a
  | a :: rest => jstr a ++ 44 :: serializeArgs rest

/-- The serialized JSON document, rendered (with Q for a double quote):
xQexeQ: <exe> ,QargsQ:[ <args> ],QcwdQ: <cwd> y, where x and y are the
braces and each <...> is a JSON string literal. -/
def serializePayload (p : DebugPayload) : Str :=
  [123, 34, 101, 120, 101, 34, 58] ++ jstr p.exe
    ++ [44, 34, 97, 114, 103, 115, 34, 58, 91] ++ serializeArgs p.args
    ++ [93, 44, 34, 99, 119, 100, 34, 58] ++ jstr p.cwd ++ [125]

/-- Modelled from the spec: encode of the Request Encoder — the payload
query parameter value, standard base64 of the UTF-8 JSON document (the
serializer emits ASCII, so its code points are its UTF-8 bytes). -/
def encodeRequest (p : DebugPayload) : Str := b64encodeBytes (serializePayload p)

/-- Typed reading of an args array (every element must be a string). -/
def strList? : List Json → Option (List Str)
  | [] => some []
  | .str s :: rest => (strList? rest).map (fun l => s :: l)
  | _ => none

/-- The Launch Coordinator's payload decoding (handleDebugUri lines
200-214 plus the typed reading of the DebugPayload fields): base64
decode, UTF-8 decode, JSON.parse, then the exe/args/cwd fields. -/
def decodeRequest (w : Str) : Option DebugPayload :=
  match b64decode w with
  | none => none
  | some bytes =>
    match jsonParse (utf8Decode bytes) with
    | none => none
    | some j =>
      match j.lookupField (str ("exe")), j.lookupField (str ("args")),
            j.lookupField (str ("cwd")) with
      | some (.str exe), some (.arr elems), some (.str cwd) =>
        match strList? elems with
        | some args => some ⟨exe, args, cwd⟩
        | none => none
      | _, _, _ => none

/-- UTF-16 code units of a string of scalar values (astral code points
become surrogate pairs); the unit sequence a conforming JSON parser
reads off the serialized escapes. -/
def utf16Units : Str → Str
  | [] => []
  | c :: r =>
    if c < 0x10000 then c :: utf16Units r
    else (0xD800 + (c - 0x10000) / 0x400) :: (0xDC00 + (c - 0x10000) % 0x400) :: utf16Units r

/-- The JSON value the serialized payload document denotes. -/
def payloadJson (p : DebugPayload) : Json :=
  .obj [(str ("exe"), .str p.exe), (str ("args"), .arr (p.args.map .str)),
        (str ("cwd"), .str p.cwd)]

/-! ### Path handling (POSIX semantics of path.isAbsolute, path.join,
path.basename) -/

/-- path.isAbsolute (POSIX). -/
def path_isAbsolute (s : Str) : Bool :=
  match s with
  | 47 :: _ => true
  | _ => false

/-- path.join of two segments (POSIX; dot-segment and duplicate-slash
normalization is not modelled, no claim exercises it). -/
def path_join (a b : Str) : Str :=
  if a = [] then b
  else if b = [] then a
  else if a.getLast? = some 47 then a ++ b
  else a ++ 47 :: b

/-- path.basename (POSIX): the last non-empty slash-separated segment. -/
def path_basename (p : Str) : Str :=
  (((p.splitOn 47).filter (fun s => s ≠ [])).getLast?).getD []

/-- Resolution of the executable path in handleDebugUri (lines 224-229):
a relative executable is joined to the working directory, an absolute
one is used as-is. -/
def resolveExePath (exe cwd : Str) : Str :=
  if path_isAbsolute exe then exe else path_join cwd exe

/-! ### Debugger backend selection (detectDebugger) -/

/-- detectDebugger from extension.ts: a function of process.platform
(the exePath parameter is accepted and ignored, as in the source). -/
def detectDebugger (platform : Str) (_exePath : Str) : Str :=
  if platform = str ("win32") then str ("cppvsdbg")
  else if platform = str ("darwin") then str ("lldb")
  else if platform = str ("linux") then str ("gdb")
  else str ("gdb")

/-! ### Debug configuration construction (handleDebugUri lines 246-286) -/

/-- The vscode.DebugConfiguration object built by handleDebugUri.  The
cwd and env values come from the payload unchecked, hence Json. -/
structure DebugConfiguration where
  name : Str
  type : Str
  request : Str
  program : Str
  args : List Json
  cwd : Json
  stopAtEntry : Bool
  MIMode : Option Str
  setupCommands : Option (List Json)
  env : Option (List (Str × Json))

/-- The base configuration plus the platform-specific Object.assign
augmentation: on win32 with cppvsdbg an E2E_TEST_OUTPUT_DIR environment
variable; for gdb or lldb additionally MIMode and empty setupCommands. -/
def createDebugConfig (platform dbg exePath : Str) (args : List Json) (cwd : Json) :
    DebugConfiguration :=
  let base : DebugConfiguration :=
    { name := str ("Debug ") ++ path_basename exePath
      type := dbg
      request := str ("launch")
      program := exePath
      args := args
      cwd := cwd
      stopAtEntry := false
      MIMode := none
      setupCommands := none
      env := none }
  if platform = str ("win32") ∧ dbg = str ("cppvsdbg") then
    { base with env := some [(str ("E2E_TEST_OUTPUT_DIR"), cwd)] }
  else if dbg = str ("gdb") ∨ dbg = str ("lldb") then
    { base with
        MIMode := some dbg
        setupCommands := some []
        env := some [(str ("E2E_TEST_OUTPUT_DIR"), cwd)] }
  else base

/-! ### The URI handler pipeline (handleDebugUri) -/

/-- The host environment observed by one handler invocation. -/
structure Host where
  workspaceOpen : Bool
  platform : Str
  existingPaths : List Str
  startSuccess : Bool

/-- Failure kinds of one invocation, by the error thrown:
noWorkspace = "No workspace folder is open...",
missingPayload = "Invalid debug URL: missing payload parameter",
decodeFailed = "Failed to decode debug payload: ..." (the spec's
MalformedPayload), invalidPayload = "Invalid payload: missing exe, args,
or cwd" (the spec's InvalidRequest), executableNotFound = "Executable
not found: <path>", startFailed = "Failed to start debugging session",
typeErr = a TypeError escaping from outside any inner try (surfaced by
the activate wrapper as a generic launch failure). -/
inductive HandlerError where
  | noWorkspace
  | missingPayload
  | decodeFailed
  | invalidPayload
  | executableNotFound (p : Str)
  | startFailed
  | typeErr
deriving DecidableEq

/-- Result of one handler invocation: the outcome, and the configurations
submitted to vscode.debug.startDebugging during it. -/
structure HandlerResult where
  outcome : Except HandlerError DebugConfiguration
  startCalls : List DebugConfiguration

/-- The validation expression of handleDebugUri line 218:
!payload.exe || !Array.isArray(payload.args) || !payload.cwd. -/
def payloadInvalid (j : Json) : Bool :=
  !truthyOpt (j.lookupField (str ("exe")))
    || !isArrayOpt (j.lookupField (str ("args")))
    || !truthyOpt (j.lookupField (str ("cwd")))

/-- Steps of handleDebugUri from the existence check on (lines 231-304):
fs.existsSync on the resolved path, detectDebugger, configuration
construction, and the startDebugging call whose falsy result is a
failure. -/
def handleResolved (host : Host) (j : Json) (argElems : List Json) (exePath : Str) :
    HandlerResult :=
  if exePath ∈ host.existingPaths then
    let dbg := detectDebugger host.platform exePath
    let config := createDebugConfig host.platform dbg exePath argElems
      ((j.lookupField (str ("cwd"))).getD .null)
    if host.startSuccess then ⟨.ok config, [config]⟩
    else ⟨.error .startFailed, [config]⟩
  else ⟨.error (.executableNotFound exePath), []⟩

/-- handleDebugUri as a function of the host environment and the payload
query parameter (none when absent; the empty string is falsy, so both
give the missing-payload error).  The decode step fails not only on
base64/JSON errors but also when its own diagnostic logging throws: for
a null payload the access payload.exe throws, and when payload.args has
no join method (that is, whenever it is not an array) payload.args.join
throws; both TypeErrors are caught by the same try/catch of lines
202-214 and so are rethrown as the decode failure.  After validation,
path.isAbsolute and path.join throw on non-string arguments (typeErr). -/
def handleDebugUri (host : Host) (payload64 : Option Str) : HandlerResult :=
  if host.workspaceOpen = false then ⟨.error .noWorkspace, []⟩
  else
    match payload64 with
    | none => ⟨.error .missingPayload, []⟩
    | some p64 =>
      if p64 = [] then ⟨.error .missingPayload, []⟩
      else
        match b64decode p64 with
        | none => ⟨.error .decodeFailed, []⟩
        | some bytes =>
          match jsonParse (utf8Decode bytes) with
          | none => ⟨.error .decodeFailed, []⟩
          | some .null => ⟨.error .decodeFailed, []⟩
          | some j =>
            match j.lookupField (str ("args")) with
            | some (.arr argElems) =>
              if payloadInvalid j then ⟨.error .invalidPayload, []⟩
              else
                match j.lookupField (str ("exe")) with
                | some (.str exe) =>
                  if path_isAbsolute exe then handleResolved host j argElems exe
                  else
                    match j.lookupField (str ("cwd")) with
                    | some (.str cwd) => handleResolved host j argElems (path_join cwd exe)
                    | _ => ⟨.error .typeErr, []⟩
                | _ => ⟨.error .typeErr, []⟩
            | _ => ⟨.error .decodeFailed, []⟩

/-- User-visible notifications of one invocation, as produced by the
handleUri wrapper in activate (lines 107-126): a failure shows exactly
one error message carrying the failure, success shows the informational
"Debugging <basename> with <debugger>" message. -/
inductive Notification where
  | errorNote (e : HandlerError)
  | infoNote (program : Str) (dbg : Str)
deriving DecidableEq

/-- The notifications produced by one URL invocation. -/
def uriHandlerNotifications (host : Host) (payload64 : Option Str) : List Notification :=
  match (handleDebugUri host payload64).outcome with
  | .error e => [.errorNote e]
  | .ok cfg => [.infoNote (path_basename cfg.program) cfg.type]

/-! ### The auto-continue listener (handleDebugUri lines 307-343) -/

/-- A debug session as seen by the listener: its identity and its
configuration.program. -/
structure Session where
  id : Nat
  program : Str
deriving DecidableEq

/-- State of the auto-continue machinery after a successful session
start: whether the onDidChangeActiveDebugSession subscription is still
registered, the scheduled setTimeout callbacks (delay, session), the
continue requests awaiting their promise, the customRequest("continue")
calls issued so far, the count of user-visible error notifications it
raised (none ever), and the count of logError calls for failed
continues. -/
structure ListenerState where
  registered : Bool
  pending : List (Nat × Session)
  inflight : List Session
  continues : List Session
  notes : Nat
  logs : Nat
deriving DecidableEq

/-- The state right after registration. -/
def initListener : ListenerState := ⟨true, [], [], [], 0, 0⟩

/-- Observable happenings: an active-debug-session-changed event, the
expiry of the oldest scheduled timeout, and the resolution (success or
failure) of the oldest in-flight continue request. -/
inductive ListenerAction where
  | sessionChanged (s : Option Session)
  | timerFire
  | continueResolved (ok : Bool)
deriving DecidableEq

/-- One transition.  An event reaches the closure only while the
subscription is registered; a matching program schedules a 500 ms
timeout; the timeout fires even if the subscription was disposed
meanwhile (dispose does not cancel setTimeout) and issues the continue
request; either resolution of that request disposes the subscription,
and a failure is logged only. -/
def listenerStep (exePath : Str) (st : ListenerState) : ListenerAction → ListenerState
  | .sessionChanged os =>
    if st.registered then
      match os with
      | some s =>
        if s.program = exePath then { st with pending := st.pending ++ [(500, s)] } else st
      | none => st
    else st
  | .timerFire =>
    match st.pending with
    | [] => st
    | (_, s) :: rest =>
      { st with pending := rest, inflight := st.inflight ++ [s], continues := st.continues ++ [s] }
  | .continueResolved ok =>
    match st.inflight with
    | [] => st
    | _ :: rest =>
      if ok then { st with inflight := rest, registered := false }
      else { st with inflight := rest, registered := false, logs := st.logs + 1 }

/-- The listener over a sequence of happenings. -/
def runListener (exePath : Str) (st : ListenerState) : List ListenerAction → ListenerState
  | [] => st
  | a :: rest => runListener exePath (listenerStep exePath st a) rest

/-! ## Lemmas -/

/-! ### Base64 round trip -/

theorem b64val_b64char : ∀ n, n < 64 → b64val (b64char n) = some n := by decide

theorem b64char_ne_pad : ∀ n, n < 64 → b64char n ≠ 61 := by decide

theorem b64decode_encode :
    ∀ bs : List Nat, (∀ b ∈ bs, b < 256) → b64decode (b64encodeBytes bs) = some bs
  | [], _ => rfl
  | [a], h => by
    have ha : a < 256 := h a (by simp)
    have e1 := b64val_b64char (a / 4) (by omega)
    have e2 := b64val_b64char (a % 4 * 16) (by omega)
    simp only [b64encodeBytes, b64decode, e1, e2]
    simp
    omega
  | [a, b], h => by
    have ha : a < 256 := h a (by simp)
    have hb : b < 256 := h b (by simp)
    have e1 := b64val_b64char (a / 4) (by omega)
    have e2 := b64val_b64char (a % 4 * 16 + b / 16) (by omega)
    have e3 := b64val_b64char (b % 16 * 4) (by omega)
    have n3 := b64char_ne_pad (b % 16 * 4) (by omega)
    simp only [b64encodeBytes, b64decode, e1, e2, e3, if_neg n3]
    simp
    omega
  | a :: b :: c :: rest, h => by
    have ha : a < 256 := h a (by simp)
    have hb : b < 256 := h b (by simp)
    have hc : c < 256 := h c (by simp)
    have e1 := b64val_b64char (a / 4) (by omega)
    have e2 := b64val_b64char (a % 4 * 16 + b / 16) (by omega)
    have e3 := b64val_b64char (b % 16 * 4 + c / 64) (by omega)
    have e4 := b64val_b64char (c % 64) (by omega)
    have n3 := b64char_ne_pad (b % 16 * 4 + c / 64) (by omega)
    have n4 := b64char_ne_pad (c % 64) (by omega)
    have ih := b64decode_encode rest (fun x hx => h x (by simp [hx]))
    simp only [b64encodeBytes, b64decode, e1, e2, e3, e4, if_neg n3, if_neg n4, ih]
    simp
    refine ⟨by omega, by omega, by omega⟩

/-! ### UTF-8 decoding is the identity on ASCII -/

theorem utf8DecodeAux_ascii :
    ∀ fuel (s : List Nat), s.length ≤ fuel → (∀ b ∈ s, b < 128) → utf8DecodeAux fuel s = s
  | 0, [], _, _ => rfl
  | _ + 1, [], _, _ => rfl
  | 0, b :: r, h, _ => by simp at h
  | fuel + 1, b :: r, h, hb => by
    have hbb : b < 128 := hb b (by simp)
    have ih := utf8DecodeAux_ascii fuel r (by simp at h; omega) (fun x hx => hb x (by simp [hx]))
    simp only [utf8DecodeAux, if_pos hbb, ih]

theorem utf8Decode_ascii (s : List Nat) (h : ∀ b ∈ s, b < 128) : utf8Decode s = s :=
  utf8DecodeAux_ascii s.length s le_rfl h

/-! ### The serializer emits ASCII -/

theorem hexDigit_lt (n : Nat) (h : n < 16) : hexDigit n < 128 := by
  unfold hexDigit; split <;> omega

theorem hex4_ascii (u : Nat) : ∀ b ∈ hex4 u, b < 128 := by
  intro b hb
  simp [hex4] at hb
  rcases hb with h | h | h | h <;>
    (subst h; exact hexDigit_lt _ (by omega))

theorem escapeChar_ascii (c : Nat) : ∀ b ∈ escapeChar c, b < 128 := by
  intro b hb
  unfold escapeChar at hb
  split at hb
  · simp at hb; omega
  · split at hb
    · simp at hb; omega
    · split at hb
      · simp at hb; omega
      · split at hb
        · simp at hb
          rcases hb with h | h
          · omega
          · rcases h with h | h
            · omega
            · exact hex4_ascii _ _ h
        · simp at hb
          rcases hb with h | h | h | h | h
          · omega
          · omega
          · exact hex4_ascii _ _ h
          · omega
          · rcases h with h | h
            · omega
            · exact hex4_ascii _ _ h

theorem jsonEscape_ascii : ∀ s : Str, ∀ b ∈ jsonEscape s, b < 128
  | [], _, hb => by simp [jsonEscape] at hb
  | c :: r, b, hb => by
    simp only [jsonEscape, List.mem_append] at hb
    rcases hb with h | h
    · exact escapeChar_ascii c b h
    · exact jsonEscape_ascii r b h

theorem jstr_ascii (s : Str) : ∀ b ∈ jstr s, b < 128 := by
  intro b hb
  simp only [jstr, List.mem_cons, List.mem_append, List.mem_singleton] at hb
  rcases hb with h | h | h <;>
    first
    | omega
    | (simp at h; omega)
    | exact jsonEscape_ascii s b h

theorem serializeArgs_ascii : ∀ l : List Str, ∀ b ∈ serializeArgs l, b < 128
  | [], _, hb => by simp [serializeArgs] at hb
  | [a], b, hb => jstr_ascii a b hb
  | a :: a2 :: rest, b, hb => by
    simp only [serializeArgs, List.mem_append, List.mem_cons] at hb
    rcases hb with h | h | h <;>
      first
      | omega
      | (simp at h; omega)
      | exact jstr_ascii a b h
      | exact serializeArgs_ascii (a2 :: rest) b h

theorem serializePayload_ascii (p : DebugPayload) : ∀ b ∈ serializePayload p, b < 128 := by
  intro b hb
  simp only [serializePayload, List.mem_append] at hb
  rcases hb with (((((h | h) | h) | h) | h) | h) | h <;>
    first
    | (simp at h; omega)
    | exact jstr_ascii _ b h
    | exact serializeArgs_ascii _ b h

/-! ### Hex escapes round-trip -/

theorem hexVal_hexDigit : ∀ n, n < 16 → hexVal (hexDigit n) = some n := by decide

theorem hexVal4_hex4 (u : Nat) (h : u < 0x10000) :
    hexVal4 (hexDigit (u / 4096 % 16)) (hexDigit (u / 256 % 16))
      (hexDigit (u / 16 % 16)) (hexDigit (u % 16)) = some u := by
  simp only [hexVal4, hexVal_hexDigit (u / 4096 % 16) (by omega),
    hexVal_hexDigit (u / 256 % 16) (by omega), hexVal_hexDigit (u / 16 % 16) (by omega),
    hexVal_hexDigit (u % 16) (by omega)]
  congr 1
  omega

/-! ### Stepping lemmas for the JSON string parser -/

theorem parseStringBody_quote (rest : Str) : parseStringBody (34 :: rest) = some ([], rest) := by
  rw [parseStringBody.eq_def]
  norm_num

theorem parseStringBody_lit (c : Nat) (r : Str) (h34 : ¬c = 34) (h92 : ¬c = 92)
    (h32 : 32 ≤ c) :
    parseStringBody (c :: r) = (parseStringBody r).map (fun p => (c :: p.1, p.2)) := by
  rw [parseStringBody.eq_def]
  simp only [if_neg h34, if_neg h92, if_pos h32]

theorem parseStringBody_escQuote (r : Str) :
    parseStringBody (92 :: 34 :: r) = (parseStringBody r).map (fun p => ((34 : Nat) :: p.1, p.2)) := by
  rw [parseStringBody.eq_def]
  norm_num [escCode]

theorem parseStringBody_escBackslash (r : Str) :
    parseStringBody (92 :: 92 :: r) = (parseStringBody r).map (fun p => ((92 : Nat) :: p.1, p.2)) := by
  rw [parseStringBody.eq_def]
  norm_num [escCode]

theorem parseStringBody_escU (d1 d2 d3 d4 : Nat) (r : Str) :
    parseStringBody (92 :: 117 :: d1 :: d2 :: d3 :: d4 :: r) =
      match hexVal4 d1 d2 d3 d4 with
      | none => none
      | some u => (parseStringBody r).map (fun p => (u :: p.1, p.2)) := by
  rw [parseStringBody.eq_def]
  norm_num

/-! ### JSON string literals round-trip -/

theorem parseStringBody_jsonEscape :
    ∀ s : Str, ValidStr s → ∀ rest : Str,
      parseStringBody (jsonEscape s ++ 34 :: rest) = some (utf16Units s, rest)
  | [], _, rest => by
    simp only [jsonEscape, List.nil_append, parseStringBody_quote, utf16Units]
  | c :: cs, hv, rest => by
    have hc : ScalarCode c := hv c (by simp)
    have ih := parseStringBody_jsonEscape cs (fun x hx => hv x (by simp [hx])) rest
    by_cases h34 : c = 34
    · subst h34
      have he : escapeChar 34 = [92, 34] := by norm_num [escapeChar]
      simp only [jsonEscape, he, List.cons_append, List.nil_append,
        parseStringBody_escQuote, ih, Option.map_some]
      simp [utf16Units]
    · by_cases h92 : c = 92
      · subst h92
        have he : escapeChar 92 = [92, 92] := by norm_num [escapeChar]
        simp only [jsonEscape, he, List.cons_append, List.nil_append,
          parseStringBody_escBackslash, ih, Option.map_some]
        simp [utf16Units]
      · by_cases hlit : 32 ≤ c ∧ c < 127
        · have he : escapeChar c = [c] := by
            unfold escapeChar
            rw [if_neg h34, if_neg h92, if_pos hlit]
          simp only [jsonEscape, he, List.cons_append, List.nil_append,
            parseStringBody_lit c _ h34 h92 hlit.1, ih, Option.map_some]
          simp [utf16Units, show c < 0x10000 by omega]
        · by_cases hu : c < 0x10000
          · have he : escapeChar c = 92 :: 117 :: hex4 c := by
              unfold escapeChar
              rw [if_neg h34, if_neg h92, if_neg hlit, if_pos hu]
            simp only [jsonEscape, he, hex4, List.cons_append, List.nil_append,
              parseStringBody_escU, hexVal4_hex4 c hu, ih, Option.map_some]
            simp [utf16Units, hu]
          · have hc2 : 0xE000 ≤ c ∧ c < 0x110000 := by
              rcases hc with h | h
              · omega
              · exact h
            have hhi : 0xD800 + (c - 0x10000) / 0x400 < 0x10000 := by omega
            have hlo : 0xDC00 + (c - 0x10000) % 0x400 < 0x10000 := by
              have := Nat.mod_lt (c - 0x10000) (show 0 < 0x400 by omega)
              omega
            have he : escapeChar c =
                (92 :: 117 :: hex4 (0xD800 + (c - 0x10000) / 0x400))
                  ++ (92 :: 117 :: hex4 (0xDC00 + (c - 0x10000) % 0x400)) := by
              unfold escapeChar
              rw [if_neg h34, if_neg h92, if_neg hlit, if_neg hu]
            simp only [jsonEscape, he, hex4, List.cons_append, List.nil_append,
              List.append_assoc, parseStringBody_escU, hexVal4_hex4 _ hhi,
              hexVal4_hex4 _ hlo, ih, Option.map_some]
            simp [utf16Units, hu]

theorem combineSurrogates_cons (u : Nat) (t : Str) (h : ¬(0xD800 ≤ u ∧ u < 0xDC00)) :
    combineSurrogates (u :: t) = u :: combineSurrogates t := by
  cases t with
  | nil => rfl
  | cons v rest =>
    rw [combineSurrogates.eq_def]
    simp only [if_neg h]

theorem combineSurrogates_pair (u v : Nat) (t : Str)
    (h1 : 0xD800 ≤ u ∧ u < 0xDC00) (h2 : 0xDC00 ≤ v ∧ v < 0xE000) :
    combineSurrogates (u :: v :: t) =
      (0x10000 + (u - 0xD800) * 0x400 + (v - 0xDC00)) :: combineSurrogates t := by
  rw [combineSurrogates.eq_def]
  split
  · simp_all
  · simp_all
  · rename_i u2 v2 rest2 heq
    obtain ⟨rfl, rfl, rfl⟩ : u = u2 ∧ v = v2 ∧ t = rest2 := by simpa using heq
    rw [if_pos h1, if_pos h2]

set_option maxRecDepth 4000 in
theorem combineSurrogates_utf16Units :
    ∀ s : Str, ValidStr s → combineSurrogates (utf16Units s) = s
  | [], _ => rfl
  | c :: cs, hv => by
    have hc : ScalarCode c := hv c (by simp)
    have ih := combineSurrogates_utf16Units cs (fun x hx => hv x (by simp [hx]))
    by_cases hu : c < 0x10000
    · have hns : ¬(0xD800 ≤ c ∧ c < 0xDC00) := by rcases hc with h | h <;> omega
      simp only [utf16Units, if_pos hu]
      rw [combineSurrogates_cons c _ hns, ih]
    · have hc2 : 0xE000 ≤ c ∧ c < 0x110000 := by
        rcases hc with h | h
        · omega
        · exact h
      have hmod := Nat.mod_lt (c - 0x10000) (show 0 < 0x400 by omega)
      simp only [utf16Units, if_neg hu]
      rw [combineSurrogates_pair (0xD800 + (c - 0x10000) / 0x400)
        (0xDC00 + (c - 0x10000) % 0x400) (utf16Units cs)
        (by constructor <;> omega) (by constructor <;> omega), ih]
      exact congrArg (fun x => x :: cs) (by omega)

/-! ### Stepping lemmas for the JSON value parser -/

theorem skipWs_cons (c : Nat) (r : Str) (h : ¬(c = 32 ∨ c = 9 ∨ c = 10 ∨ c = 13)) :
    skipWs (c :: r) = c :: r := by
  rw [skipWs.eq_def]
  simp only [if_neg h]

theorem parseKey_exe (X : Str) :
    parseStringBody (101 :: 120 :: 101 :: 34 :: X) = some ([101, 120, 101], X) := by
  rw [parseStringBody_lit 101 _ (by norm_num) (by norm_num) (by norm_num),
    parseStringBody_lit 120 _ (by norm_num) (by norm_num) (by norm_num),
    parseStringBody_lit 101 _ (by norm_num) (by norm_num) (by norm_num),
    parseStringBody_quote]
  rfl

theorem parseKey_args (X : Str) :
    parseStringBody (97 :: 114 :: 103 :: 115 :: 34 :: X) = some ([97, 114, 103, 115], X) := by
  rw [parseStringBody_lit 97 _ (by norm_num) (by norm_num) (by norm_num),
    parseStringBody_lit 114 _ (by norm_num) (by norm_num) (by norm_num),
    parseStringBody_lit 103 _ (by norm_num) (by norm_num) (by norm_num),
    parseStringBody_lit 115 _ (by norm_num) (by norm_num) (by norm_num),
    parseStringBody_quote]
  rfl

theorem parseKey_cwd (X : Str) :
    parseStringBody (99 :: 119 :: 100 :: 34 :: X) = some ([99, 119, 100], X) := by
  rw [parseStringBody_lit 99 _ (by norm_num) (by norm_num) (by norm_num),
    parseStringBody_lit 119 _ (by norm_num) (by norm_num) (by norm_num),
    parseStringBody_lit 100 _ (by norm_num) (by norm_num) (by norm_num),
    parseStringBody_quote]
  rfl

theorem parseValue_jstr (f : Nat) (s : Str) (hv : ValidStr s) (rest : Str) :
    parseValue (f + 1) (jstr s ++ rest) = some (.str s, rest) := by
  have hsh : jstr s ++ rest = 34 :: (jsonEscape s ++ 34 :: rest) := by
    simp [jstr, List.cons_append, List.append_assoc]
  rw [hsh]
  simp only [parseValue]
  rw [skipWs_cons 34 _ (by norm_num)]
  norm_num
  rw [parseStringBody_jsonEscape s hv rest]
  simp [combineSurrogates_utf16Units s hv]

theorem parseElems_serializeArgs :
    ∀ (args : List Str) (f : Nat), (∀ a ∈ args, ValidStr a) → args ≠ [] → args.length ≤ f →
      ∀ (acc : List Json) (rest : Str),
        parseElems (f + 1) (serializeArgs args ++ 93 :: rest) acc
          = some (.arr (acc ++ args.map .str), rest)
  | [], _, _, hne, _, _, _ => absurd rfl hne
  | [a], f, hv, _, hf, acc, rest => by
    obtain ⟨g, rfl⟩ : ∃ g, f = g + 1 := ⟨f - 1, by
      have h1 : ([a] : List Str).length ≤ f := hf
      simp only [List.length_singleton] at h1
      omega⟩
    rw [parseElems.eq_2]
    simp only [serializeArgs]
    rw [parseValue_jstr g a (hv a (by simp)) (93 :: rest)]
    norm_num
    rw [skipWs_cons 93 _ (by norm_num)]
  | a :: a2 :: tl, f, hv, _, hf, acc, rest => by
    obtain ⟨g, rfl⟩ : ∃ g, f = g + 1 := ⟨f - 1, by
      have h1 : (a :: a2 :: tl).length ≤ f := hf
      simp only [List.length_cons] at h1
      omega⟩
    have ih := parseElems_serializeArgs (a2 :: tl) g (fun x hx => hv x (by simp [hx]))
      (by simp) (by
        have h1 : (a :: a2 :: tl).length ≤ g + 1 := hf
        simp only [List.length_cons] at h1 ⊢
        omega) (acc ++ [.str a]) rest
    rw [parseElems.eq_2]
    simp only [serializeArgs]
    rw [List.append_assoc, show (44 :: serializeArgs (a2 :: tl)) ++ 93 :: rest
        = 44 :: (serializeArgs (a2 :: tl) ++ 93 :: rest) from rfl]
    rw [parseValue_jstr g a (hv a (by simp)) _]
    norm_num
    rw [skipWs_cons 44 _ (by norm_num)]
    norm_num
    rw [ih]
    simp

theorem serializeArgs_headQuote (a : Str) (tl : List Str) :
    ∃ T, serializeArgs (a :: tl) = 34 :: T := by
  cases tl <;> simp [serializeArgs, jstr, List.cons_append]

theorem parseValue_argsArr (g : Nat) (args : List Str) (hargs : ∀ a ∈ args, ValidStr a)
    (hg : args.length + 1 ≤ g) (W : Str) :
    parseValue (g + 1) (91 :: (serializeArgs args ++ 93 :: W)) = some (.arr (args.map .str), W) := by
  rw [parseValue.eq_2]
  rw [skipWs_cons 91 _ (by norm_num)]
  norm_num
  cases args with
  | nil =>
    simp only [serializeArgs, List.nil_append]
    norm_num [skipWs]
  | cons a tl =>
    obtain ⟨T, hT⟩ := serializeArgs_headQuote a tl
    rw [show serializeArgs (a :: tl) ++ 93 :: W = 34 :: (T ++ 93 :: W) by rw [hT]; rfl]
    rw [skipWs_cons 34 _ (by norm_num)]
    norm_num
    rw [show (34 : Nat) :: (T ++ 93 :: W) = serializeArgs (a :: tl) ++ 93 :: W by rw [hT]; rfl]
    obtain ⟨g2, rfl⟩ : ∃ g2, g = g2 + 1 := ⟨g - 1, by omega⟩
    rw [parseElems_serializeArgs (a :: tl) g2 hargs (by simp) (by omega) [] W]
    simp

theorem parseMembers_cwd (f : Nat) (cwd : Str) (hv : ValidStr cwd) (acc : List (Str × Json)) :
    parseMembers (f + 1 + 1) (34 :: 99 :: 119 :: 100 :: 34 :: 58 :: (jstr cwd ++ [125])) acc
      = some (.obj (acc ++ [([99, 119, 100], .str cwd)]), []) := by
  rw [parseMembers.eq_2]
  rw [skipWs_cons 34 _ (by norm_num)]
  norm_num
  rw [parseKey_cwd]
  norm_num
  rw [skipWs_cons 58 _ (by norm_num)]
  norm_num
  rw [parseValue_jstr f cwd hv [125]]
  norm_num [skipWs]
  rfl

theorem parseMembers_args (f : Nat) (args : List Str) (cwd : Str)
    (hargs : ∀ a ∈ args, ValidStr a) (hcwd : ValidStr cwd)
    (hf : args.length + 2 ≤ f) (acc : List (Str × Json)) :
    parseMembers (f + 1) (34 :: 97 :: 114 :: 103 :: 115 :: 34 :: 58 :: 91 ::
        (serializeArgs args ++ (93 :: 44 :: 34 :: 99 :: 119 :: 100 :: 34 :: 58 ::
          (jstr cwd ++ [125])))) acc
      = some (.obj (acc ++ [([97, 114, 103, 115], .arr (args.map .str)),
          ([99, 119, 100], .str cwd)]), []) := by
  obtain ⟨g, rfl⟩ : ∃ g, f = g + 1 := ⟨f - 1, by omega⟩
  rw [parseMembers.eq_2]
  rw [skipWs_cons 34 _ (by norm_num)]
  norm_num
  rw [parseKey_args]
  norm_num
  rw [skipWs_cons 58 _ (by norm_num)]
  norm_num
  rw [show serializeArgs args ++ (93 :: 44 :: 34 :: 99 :: 119 :: 100 :: 34 :: 58 ::
      (jstr cwd ++ [125]))
      = serializeArgs args ++ 93 :: (44 :: 34 :: 99 :: 119 :: 100 :: 34 :: 58 ::
      (jstr cwd ++ [125])) from rfl]
  rw [parseValue_argsArr g args hargs (by omega) _]
  norm_num
  rw [skipWs_cons 44 _ (by norm_num)]
  norm_num
  obtain ⟨g2, rfl⟩ : ∃ g2, g = g2 + 1 := ⟨g - 1, by omega⟩
  rw [parseMembers_cwd g2 cwd hcwd _]
  simp [show combineSurrogates [97, 114, 103, 115] = [97, 114, 103, 115] from rfl]

theorem parseMembers_exe (f : Nat) (exe : Str) (args : List Str) (cwd : Str)
    (hexe : ValidStr exe) (hargs : ∀ a ∈ args, ValidStr a) (hcwd : ValidStr cwd)
    (hf : args.length + 3 ≤ f) (acc : List (Str × Json)) :
    parseMembers (f + 1) (34 :: 101 :: 120 :: 101 :: 34 :: 58 ::
        (jstr exe ++ (44 :: 34 :: 97 :: 114 :: 103 :: 115 :: 34 :: 58 :: 91 ::
          (serializeArgs args ++ (93 :: 44 :: 34 :: 99 :: 119 :: 100 :: 34 :: 58 ::
            (jstr cwd ++ [125])))))) acc
      = some (.obj (acc ++ [([101, 120, 101], .str exe),
          ([97, 114, 103, 115], .arr (args.map .str)), ([99, 119, 100], .str cwd)]), []) := by
  obtain ⟨g, rfl⟩ : ∃ g, f = g + 1 := ⟨f - 1, by omega⟩
  rw [parseMembers.eq_2]
  rw [skipWs_cons 34 _ (by norm_num)]
  norm_num
  rw [parseKey_exe]
  norm_num
  rw [skipWs_cons 58 _ (by norm_num)]
  norm_num
  rw [parseValue_jstr g exe hexe _]
  norm_num
  rw [skipWs_cons 44 _ (by norm_num)]
  norm_num
  rw [parseMembers_args g args cwd hargs hcwd (by omega) _]
  simp [show combineSurrogates [101, 120, 101] = [101, 120, 101] from rfl]

/-! ### The serialized payload parses to its JSON value -/

theorem parseValue_serializePayload (p : DebugPayload) (fuel : Nat)
    (hf : p.args.length + 5 ≤ fuel)
    (hexe : ValidStr p.exe) (hcwd : ValidStr p.cwd) (hargs : ∀ a ∈ p.args, ValidStr a) :
    parseValue fuel (serializePayload p) = some (payloadJson p, []) := by
  obtain ⟨g, rfl⟩ : ∃ g, fuel = g + 1 := ⟨fuel - 1, by omega⟩
  have hs : serializePayload p = 123 :: 34 :: 101 :: 120 :: 101 :: 34 :: 58 ::
      (jstr p.exe ++ (44 :: 34 :: 97 :: 114 :: 103 :: 115 :: 34 :: 58 :: 91 ::
        (serializeArgs p.args ++ (93 :: 44 :: 34 :: 99 :: 119 :: 100 :: 34 :: 58 ::
          (jstr p.cwd ++ [125]))))) := by
    simp [serializePayload, List.cons_append, List.append_assoc]
  rw [hs, parseValue.eq_2]
  rw [skipWs_cons 123 _ (by norm_num)]
  norm_num
  rw [skipWs_cons 34 _ (by norm_num)]
  norm_num
  obtain ⟨g2, rfl⟩ : ∃ g2, g = g2 + 1 := ⟨g - 1, by omega⟩
  rw [parseMembers_exe g2 p.exe p.args p.cwd hexe hargs hcwd (by omega) []]
  simp [payloadJson, show str ("exe") = [101, 120, 101] from rfl,
    show str ("args") = [97, 114, 103, 115] from rfl,
    show str ("cwd") = [99, 119, 100] from rfl]

theorem jstr_length (s : Str) : 2 ≤ (jstr s).length := by
  simp [jstr]

theorem serializeArgs_length : ∀ args : List Str, args.length ≤ (serializeArgs args).length
  | [] => by simp [serializeArgs]
  | [a] => by
    have h1 := jstr_length a
    simpa [serializeArgs] using by omega
  | a :: a2 :: tl => by
    have h1 := jstr_length a
    have h2 := serializeArgs_length (a2 :: tl)
    simp only [serializeArgs, List.length_append, List.length_cons] at h2 ⊢
    omega

theorem serializePayload_length (p : DebugPayload) :
    p.args.length + 25 ≤ (serializePayload p).length := by
  have h1 := serializeArgs_length p.args
  have h2 := jstr_length p.exe
  have h3 := jstr_length p.cwd
  simp only [serializePayload, List.length_append, List.length_cons, List.length_nil]
  omega

theorem jsonParse_serializePayload (p : DebugPayload)
    (hexe : ValidStr p.exe) (hcwd : ValidStr p.cwd) (hargs : ∀ a ∈ p.args, ValidStr a) :
    jsonParse (serializePayload p) = some (payloadJson p) := by
  unfold jsonParse
  rw [parseValue_serializePayload p ((serializePayload p).length + 1)
    (by have h1 := serializePayload_length p; omega) hexe hcwd hargs]
  simp [skipWs]

/-! ### Typed field extraction of the decoded payload -/

theorem payloadJson_lookup_exe (p : DebugPayload) :
    (payloadJson p).lookupField (str ("exe")) = some (.str p.exe) := rfl

theorem payloadJson_lookup_args (p : DebugPayload) :
    (payloadJson p).lookupField (str ("args")) = some (.arr (p.args.map .str)) := rfl

theorem payloadJson_lookup_cwd (p : DebugPayload) :
    (payloadJson p).lookupField (str ("cwd")) = some (.str p.cwd) := rfl

theorem strList?_map : ∀ l : List Str, strList? (l.map .str) = some l
  | [] => rfl
  | a :: tl => by simp [strList?, strList?_map tl]

/-! ### The decode of an encoded request -/

theorem decodeRequest_encodeRequest (p : DebugPayload)
    (hexe : ValidStr p.exe) (hcwd : ValidStr p.cwd) (hargs : ∀ a ∈ p.args, ValidStr a) :
    decodeRequest (encodeRequest p) = some p := by
  unfold decodeRequest encodeRequest
  rw [b64decode_encode (serializePayload p)
    (fun b hb => by have := serializePayload_ascii p b hb; omega)]
  norm_num
  rw [utf8Decode_ascii (serializePayload p) (serializePayload_ascii p),
    jsonParse_serializePayload p hexe hcwd hargs]
  norm_num
  rw [payloadJson_lookup_exe, payloadJson_lookup_args, payloadJson_lookup_cwd]
  norm_num
  rw [strList?_map]

/-! ### The handler on an encoded valid request -/

theorem encodeRequest_ne_nil (p : DebugPayload) : encodeRequest p ≠ [] := by
  obtain ⟨X, hX⟩ : ∃ X, serializePayload p = 123 :: 34 :: 101 :: X :=
    ⟨120 :: 101 :: 34 :: 58 :: (jstr p.exe ++ 44 :: 34 :: 97 :: 114 :: 103 :: 115 :: 34 ::
      58 :: 91 :: (serializeArgs p.args ++ 93 :: 44 :: 34 :: 99 :: 119 :: 100 :: 34 :: 58 ::
      (jstr p.cwd ++ [125]))),
      by simp [serializePayload, List.cons_append, List.append_assoc]⟩
  unfold encodeRequest
  rw [hX]
  simp [b64encodeBytes]

theorem payloadInvalid_payloadJson (p : DebugPayload) (hne : p.exe ≠ []) (hcne : p.cwd ≠ []) :
    payloadInvalid (payloadJson p) = false := by
  simp [payloadInvalid, payloadJson_lookup_exe, payloadJson_lookup_args,
    payloadJson_lookup_cwd, truthyOpt, truthy, isArrayOpt, hne, hcne]

theorem handleDebugUri_encode (host : Host) (p : DebugPayload) (hv : ValidRequest p)
    (hw : host.workspaceOpen = true) :
    handleDebugUri host (some (encodeRequest p)) =
      handleResolved host (payloadJson p) (p.args.map .str) (resolveExePath p.exe p.cwd) := by
  obtain ⟨hne, hcne, hexe, hcwd, hargs⟩ := hv
  unfold handleDebugUri
  rw [hw]
  norm_num
  rw [if_neg (encodeRequest_ne_nil p)]
  unfold encodeRequest
  rw [b64decode_encode (serializePayload p)
    (fun b hb => by have := serializePayload_ascii p b hb; omega)]
  norm_num
  rw [utf8Decode_ascii (serializePayload p) (serializePayload_ascii p),
    jsonParse_serializePayload p hexe hcwd hargs]
  rw [show payloadJson p = Json.obj [(str ("exe"), .str p.exe),
    (str ("args"), .arr (p.args.map .str)), (str ("cwd"), .str p.cwd)] from rfl]
  norm_num
  rw [show (Json.obj [(str ("exe"), .str p.exe), (str ("args"), .arr (p.args.map .str)),
    (str ("cwd"), .str p.cwd)]).lookupField (str ("args"))
    = some (.arr (p.args.map .str)) from payloadJson_lookup_args p]
  norm_num
  rw [show payloadInvalid (Json.obj [(str ("exe"), .str p.exe),
    (str ("args"), .arr (p.args.map .str)), (str ("cwd"), .str p.cwd)]) = false
    from payloadInvalid_payloadJson p hne hcne]
  norm_num
  rw [show (Json.obj [(str ("exe"), .str p.exe), (str ("args"), .arr (p.args.map .str)),
    (str ("cwd"), .str p.cwd)]).lookupField (str ("exe"))
    = some (.str p.exe) from payloadJson_lookup_exe p]
  norm_num
  unfold resolveExePath
  by_cases habs : path_isAbsolute p.exe
  · rw [if_pos habs, if_pos (show (path_isAbsolute p.exe) = true from habs)]
  · rw [if_neg habs, if_neg (show ¬(path_isAbsolute p.exe) = true from habs)]
    rw [show (Json.obj [(str ("exe"), .str p.exe), (str ("args"), .arr (p.args.map .str)),
      (str ("cwd"), .str p.cwd)]).lookupField (str ("cwd"))
      = some (.str p.cwd) from payloadJson_lookup_cwd p]

/-! ### Handler outcome and startDebugging calls -/

theorem handleDebugUri_startCalls (host : Host) (p64 : Option Str) :
    (handleDebugUri host p64).startCalls = [] ∨
    ∃ cfg, (handleDebugUri host p64).startCalls = [cfg] ∧
      ((handleDebugUri host p64).outcome = .ok cfg ∨
        (handleDebugUri host p64).outcome = .error .startFailed) := by
  unfold handleDebugUri handleResolved
  repeat' split <;> try simp

theorem uriHandlerNotifications_error (host : Host) (p64 : Option Str) (e : HandlerError)
    (h : (handleDebugUri host p64).outcome = .error e) :
    uriHandlerNotifications host p64 = [.errorNote e] := by
  unfold uriHandlerNotifications
  rw [h]

/-! ### Listener lemmas -/

theorem listenerStep_notes (e : Str) (st : ListenerState) (a : ListenerAction) :
    (listenerStep e st a).notes = st.notes := by
  unfold listenerStep
  cases a <;> (repeat' split) <;> rfl

theorem runListener_notes (e : Str) :
    ∀ (acts : List ListenerAction) (st : ListenerState),
      (runListener e st acts).notes = st.notes
  | [], _ => rfl
  | a :: rest, st => by
    simp only [runListener]
    rw [runListener_notes e rest (listenerStep e st a), listenerStep_notes]

theorem runListener_frozen (e : Str) :
    ∀ (acts : List ListenerAction) (st : ListenerState),
      st.registered = false → st.pending = [] → st.inflight = [] →
      runListener e st acts = st
  | [], _, _, _, _ => rfl
  | a :: rest, st, h1, h2, h3 => by
    have hstep : listenerStep e st a = st := by
      cases a with
      | sessionChanged os => simp [listenerStep, h1]
      | timerFire => simp [listenerStep, h2]
      | continueResolved ok => simp [listenerStep, h3]
    simp only [runListener, hstep]
    exact runListener_frozen e rest st h1 h2 h3

theorem runListener_nonmatching (e : Str) :
    ∀ (acts : List ListenerAction) (st : ListenerState),
      (∀ s2 : Session, (ListenerAction.sessionChanged (some s2)) ∈ acts → s2.program ≠ e) →
      st.pending = [] → st.inflight = [] →
      runListener e st acts = st
  | [], _, _, _, _ => rfl
  | a :: rest, st, hm, h2, h3 => by
    have hstep : listenerStep e st a = st := by
      cases a with
      | sessionChanged os =>
        cases os with
        | none => simp [listenerStep]
        | some s2 =>
          have := hm s2 (by simp)
          simp [listenerStep, this]
      | timerFire => simp [listenerStep, h2]
      | continueResolved ok => simp [listenerStep, h3]
    simp only [runListener, hstep]
    exact runListener_nonmatching e rest st (fun s2 hs2 => hm s2 (by simp [hs2])) h2 h3

theorem runListener_schedule (e : Str) (s : Session) (hs : s.program = e) :
    runListener e initListener [.sessionChanged (some s)]
      = { initListener with pending := [(500, s)] } := by
  simp [runListener, listenerStep, initListener, hs]

theorem runListener_single (e : Str) (s : Session) (hs : s.program = e) (ok : Bool) :
    runListener e initListener
        [.sessionChanged (some s), .timerFire, .continueResolved ok]
      = ⟨false, [], [], [s], 0, if ok then 0 else 1⟩ := by
  subst hs
  cases ok <;> simp [runListener, listenerStep, initListener]

theorem runListener_append (e : Str) :
    ∀ (l1 l2 : List ListenerAction) (st : ListenerState),
      runListener e st (l1 ++ l2) = runListener e (runListener e st l1) l2
  | [], _, _ => rfl
  | a :: rest, l2, st => by
    simp only [List.cons_append, runListener]
    exact runListener_append e rest l2 (listenerStep e st a)

/-! ## Claims -/

/-- C3: Backend selection is a total, deterministic function of the host
platform alone: win32 maps to cppvsdbg, darwin to lldb, linux to gdb and
every other platform to gdb, and the executable path passed to
detectDebugger never changes the result. -/
theorem c3_detect_debugger :
    (∀ e : Str, detectDebugger (str ("win32")) e = str ("cppvsdbg"))
    ∧ (∀ e : Str, detectDebugger (str ("darwin")) e = str ("lldb"))
    ∧ (∀ e : Str, detectDebugger (str ("linux")) e = str ("gdb"))
    ∧ (∀ pf e : Str, pf ≠ str ("win32") → pf ≠ str ("darwin") → pf ≠ str ("linux") →
        detectDebugger pf e = str ("gdb"))
    ∧ (∀ pf e e2 : Str, detectDebugger pf e = detectDebugger pf e2) := by
  refine ⟨fun e => ?_, fun e => ?_, fun e => ?_, fun pf e h1 h2 h3 => ?_, fun pf e e2 => rfl⟩
  · unfold detectDebugger
    rw [if_pos rfl]
  · unfold detectDebugger
    rw [if_neg (by decide), if_pos rfl]
  · unfold detectDebugger
    rw [if_neg (by decide), if_neg (by decide), if_pos rfl]
  · unfold detectDebugger
    rw [if_neg h1, if_neg h2, if_neg h3]

/-- C3 witness: the mapping at concrete platforms, including an unknown
platform name falling back to gdb. -/
theorem c3_detect_debugger_witness :
    detectDebugger (str ("win32")) (str ("/w/a.exe")) = str ("cppvsdbg")
    ∧ detectDebugger (str ("freebsd")) (str ("/w/a")) = str ("gdb") :=
  ⟨c3_detect_debugger.1 (str ("/w/a.exe")),
   c3_detect_debugger.2.2.2.1 (str ("freebsd")) (str ("/w/a"))
     (by decide) (by decide) (by decide)⟩

/-- C4: Path resolution in handleDebugUri: a relative executable is
joined to the working directory, an absolute one is used as-is; in
particular app.exe with working directory /w resolves to /w/app.exe and
the absolute /abs/app.exe resolves to itself for every working
directory. -/
theorem c4_resolve_path :
    (∀ exe cwd : Str, path_isAbsolute exe = false → resolveExePath exe cwd = path_join cwd exe)
    ∧ (∀ exe cwd : Str, path_isAbsolute exe = true → resolveExePath exe cwd = exe)
    ∧ resolveExePath (str ("app.exe")) (str ("/w")) = str ("/w/app.exe")
    ∧ (∀ cwd : Str, resolveExePath (str ("/abs/app.exe")) cwd = str ("/abs/app.exe")) := by
  refine ⟨fun exe cwd h => ?_, fun exe cwd h => ?_, rfl, fun cwd => rfl⟩
  · unfold resolveExePath
    rw [if_neg (by rw [h]; exact Bool.false_ne_true)]
  · unfold resolveExePath
    rw [if_pos h]

/-- C4 witness: the two branches applied at concrete paths. -/
theorem c4_resolve_path_witness :
    resolveExePath (str ("app.exe")) (str ("/w")) = path_join (str ("/w")) (str ("app.exe"))
    ∧ resolveExePath (str ("/abs/app.exe")) (str ("/w")) = str ("/abs/app.exe") :=
  ⟨c4_resolve_path.1 (str ("app.exe")) (str ("/w")) rfl,
   c4_resolve_path.2.1 (str ("/abs/app.exe")) (str ("/w")) rfl⟩

/-- C7: For every valid LaunchRequest the encoded transport form decodes
back to exactly the same request: the encoder (modelled from the spec,
since the command-line tool is not among the sources) serializes the
exe/args/cwd JSON document in standard base64, and the Launch
Coordinator decoding (base64, UTF-8, JSON.parse, field reads) restores
the request. -/
theorem c7_round_trip (p : DebugPayload) (hv : ValidRequest p) :
    decodeRequest (encodeRequest p) = some p := by
  obtain ⟨_, _, hexe, hcwd, hargs⟩ := hv
  exact decodeRequest_encodeRequest p hexe hcwd hargs

/-- C7 witness: the round trip evaluated on a concrete request, with
arguments covering escapes, a control character and an astral code
point. -/
theorem c7_round_trip_witness :
    decodeRequest (encodeRequest ⟨str ("hello.exe"),
        [str ("arg1"), [34, 92, 10, 128512]], str ("/work")⟩)
      = some ⟨str ("hello.exe"), [str ("arg1"), [34, 92, 10, 128512]], str ("/work")⟩ :=
  c7_round_trip ⟨str ("hello.exe"), [str ("arg1"), [34, 92, 10, 128512]], str ("/work")⟩
    (by refine ⟨by decide, by decide, by decide, by decide, ?_⟩; decide)

/-- C9 counterexample: a payload that base64-decodes to the four
characters null is not surfaced outside the error taxonomy as the claim
states: the handler raises the decode failure (MalformedPayload), since
the diagnostic logging inside the decode try block throws a TypeError on
the null property access, which the catch of that block converts into
the decode-failure error. -/
theorem c9_counterexample :
    (handleDebugUri ⟨true, str ("linux"), [], true⟩
        (some (b64encodeBytes (str ("null"))))).outcome
      = .error .decodeFailed
    ∧ (Except.error HandlerError.decodeFailed :
        Except HandlerError DebugConfiguration) ≠ .error .typeErr :=
  ⟨rfl, by simp⟩

/-- C9 (amended): JSON.parse succeeds on null, but the decode step of
the handler still fails - the null payload is caught inside the decode
try block (its diagnostic logging accesses payload.exe on null), so the
handler raises MalformedPayload, not InvalidRequest and not a generic
out-of-taxonomy failure (typeErr). -/
theorem c9_null_payload :
    jsonParse (str ("null")) = some .null
    ∧ (handleDebugUri ⟨true, str ("linux"), [], true⟩
        (some (b64encodeBytes (str ("null"))))).outcome = .error .decodeFailed
    ∧ (handleDebugUri ⟨true, str ("linux"), [], true⟩
        (some (b64encodeBytes (str ("null"))))).outcome ≠ .error .invalidPayload
    ∧ (handleDebugUri ⟨true, str ("linux"), [], true⟩
        (some (b64encodeBytes (str ("null"))))).outcome ≠ .error .typeErr := by
  refine ⟨rfl, rfl, ?_, ?_⟩ <;>
    (rw [show (handleDebugUri ⟨true, str ("linux"), [], true⟩
        (some (b64encodeBytes (str ("null"))))).outcome = .error .decodeFailed from rfl]
     simp)

/-- C10: The Validate step checks only truthiness of exe and cwd and
array-ness of args: every payload whose exe and cwd properties are
truthy JSON values of any type and whose args property is an array
passes the validation expression, and the args elements are copied
verbatim and untype-checked into the launch configuration. -/
theorem c10_validation_truthiness :
    (∀ j : Json, truthyOpt (j.lookupField (str ("exe"))) = true →
      isArrayOpt (j.lookupField (str ("args"))) = true →
      truthyOpt (j.lookupField (str ("cwd"))) = true →
      payloadInvalid j = false)
    ∧ (∀ (platform dbg exePath : Str) (elems : List Json) (cwd : Json),
        (createDebugConfig platform dbg exePath elems cwd).args = elems) := by
  constructor
  · intro j h1 h2 h3
    simp [payloadInvalid, h1, h2, h3]
  · intro platform dbg exePath elems cwd
    simp only [createDebugConfig]
    (repeat' split) <;> rfl

/-- C10 witness: a payload with a numeric exe, a boolean cwd and an
array of non-string args passes validation, and those args land
verbatim in the configuration. -/
theorem c10_validation_truthiness_witness :
    payloadInvalid (.obj [(str ("exe"), .num 5 0), (str ("args"), .arr [.null, .num 3 0]),
        (str ("cwd"), .bool true)]) = false
    ∧ (createDebugConfig (str ("linux")) (str ("gdb")) (str ("/w/a"))
        [.null, .num 3 0] (.bool true)).args = [.null, .num 3 0] :=
  ⟨c10_validation_truthiness.1
      (.obj [(str ("exe"), .num 5 0), (str ("args"), .arr [.null, .num 3 0]),
        (str ("cwd"), .bool true)]) rfl rfl rfl,
   c10_validation_truthiness.2 (str ("linux")) (str ("gdb")) (str ("/w/a"))
      [.null, .num 3 0] (.bool true)⟩

/-- C1 counterexample: two session-changed events for the matching
session delivered before the grace timeouts fire make the listener issue
two continue requests, so the claim that every event sequence leads to
at most one continue attempt per launched session is false. -/
theorem c1_counterexample :
    (runListener (str ("/w/app.exe")) initListener
      [.sessionChanged (some ⟨1, str ("/w/app.exe")⟩),
       .sessionChanged (some ⟨1, str ("/w/app.exe")⟩),
       .timerFire, .timerFire]).continues.length = 2 := rfl

/-- C1 (amended): events for a non-matching program never trigger a
continue; a matching event schedules exactly one continue after the
500 ms grace delay; once that continue resolves (success or failure)
the listener is disposed, so any events after the resolution trigger
nothing further - but a second matching event delivered before the
first resolution schedules an additional continue (see the
counterexample), so at most one continue holds only for sequences with
a single matching event before resolution. -/
theorem c1_auto_continue (exePath : Str) (s : Session) (hs : s.program = exePath) (ok : Bool) :
    (∀ acts : List ListenerAction,
      (∀ s2 : Session, ListenerAction.sessionChanged (some s2) ∈ acts → s2.program ≠ exePath) →
      (runListener exePath initListener acts).continues = [])
    ∧ runListener exePath initListener [.sessionChanged (some s)]
        = { initListener with pending := [(500, s)] }
    ∧ (∀ post : List ListenerAction,
        (runListener exePath initListener
          ([.sessionChanged (some s), .timerFire, .continueResolved ok] ++ post)).continues = [s]
        ∧ (runListener exePath initListener
          ([.sessionChanged (some s), .timerFire, .continueResolved ok] ++ post)).registered
            = false) := by
  refine ⟨fun acts hm => ?_, runListener_schedule exePath s hs, fun post => ?_⟩
  · rw [runListener_nonmatching exePath acts initListener hm rfl rfl]
    rfl
  · rw [runListener_append exePath _ post initListener, runListener_single exePath s hs ok,
      runListener_frozen exePath post _ rfl rfl rfl]
    exact ⟨rfl, rfl⟩

/-- C1 witness: a non-matching event triggers nothing, and after a
matching event, its timeout and the continue resolution, later matching
events and timeouts add no further continue call. -/
theorem c1_auto_continue_witness :
    (runListener (str ("/w/a")) initListener
      [.sessionChanged (some ⟨2, str ("/other")⟩)]).continues = []
    ∧ (runListener (str ("/w/a")) initListener
      ([.sessionChanged (some ⟨1, str ("/w/a")⟩), .timerFire, .continueResolved true]
        ++ [.sessionChanged (some ⟨1, str ("/w/a")⟩), .timerFire])).continues
      = [⟨1, str ("/w/a")⟩] :=
  have h := c1_auto_continue (str ("/w/a")) ⟨1, str ("/w/a")⟩ rfl true
  ⟨h.1 [.sessionChanged (some ⟨2, str ("/other")⟩)]
      (fun s2 hm => by simp at hm; subst hm; decide),
   (h.2.2 [.sessionChanged (some ⟨1, str ("/w/a")⟩), .timerFire]).1⟩

/-- C2 counterexample: a payload whose args is the number 5 does not
yield the invalid-request error the claim demands - the decode step
itself fails (the diagnostic logging evaluates payload.args.join, whose
TypeError is caught by the decode catch), surfacing MalformedPayload. -/
theorem c2_counterexample :
    (handleDebugUri ⟨true, str ("linux"), [], true⟩
        (some (b64encodeBytes
          (str ("\x7b\"exe\":\"x\",\"args\":5,\"cwd\":\"/w\"\x7d"))))).outcome
      = .error .decodeFailed
    ∧ (Except.error HandlerError.decodeFailed :
        Except HandlerError DebugConfiguration) ≠ .error .invalidPayload :=
  ⟨rfl, by simp⟩

/-- C2 (amended): a missing (or empty) payload parameter yields
MissingPayload; non-base64 or non-JSON payloads yield MalformedPayload;
the payload decoding to exe = empty string, args = empty array,
cwd = /w yields InvalidRequest; and among payloads that survive the
decode step (non-null, args an array - others fail earlier inside the
decode step as MalformedPayload), the validation expression fails
exactly when exe or cwd is falsy. -/
theorem c2_validation :
    (∀ host : Host, host.workspaceOpen = true →
      (handleDebugUri host none).outcome = .error .missingPayload
      ∧ (handleDebugUri host (some [])).outcome = .error .missingPayload)
    ∧ (handleDebugUri ⟨true, str ("linux"), [], true⟩
        (some (encodeRequest ⟨[], [], str ("/w")⟩))).outcome = .error .invalidPayload
    ∧ (handleDebugUri ⟨true, str ("linux"), [], true⟩ (some [33, 33, 33])).outcome
        = .error .decodeFailed
    ∧ (handleDebugUri ⟨true, str ("linux"), [], true⟩
        (some (b64encodeBytes (str ("hello"))))).outcome = .error .decodeFailed
    ∧ (∀ j : Json, j ≠ .null → isArrayOpt (j.lookupField (str ("args"))) = true →
        (payloadInvalid j = true ↔
          (truthyOpt (j.lookupField (str ("exe"))) = false
            ∨ truthyOpt (j.lookupField (str ("cwd"))) = false))) := by
  refine ⟨fun host hw => ⟨?_, ?_⟩, rfl, rfl, rfl, fun j hn ha => ?_⟩
  · simp [handleDebugUri, hw]
  · simp [handleDebugUri, hw]
  · simp [payloadInvalid, ha]

/-- C2 witness: the missing-payload branch at a concrete host, and the
validation characterization applied to a payload without an exe field. -/
theorem c2_validation_witness :
    (handleDebugUri ⟨true, str ("linux"), [], true⟩ none).outcome = .error .missingPayload
    ∧ payloadInvalid (.obj [(str ("args"), .arr []), (str ("cwd"), .str (str ("/w")))]) = true :=
  ⟨(c2_validation.1 ⟨true, str ("linux"), [], true⟩ rfl).1,
   (c2_validation.2.2.2.2 (.obj [(str ("args"), .arr []), (str ("cwd"), .str (str ("/w")))])
      (fun h => Json.noConfusion h) rfl).mpr (Or.inl rfl)⟩

/-- C5: For every platform and request data the built configuration has
the display name Debug plus the basename of the resolved executable,
request launch, the selected backend as its type, the resolved program
path, the arguments verbatim in order, the request working directory,
and stop-at-entry false; with the native cppvsdbg backend the
E2E_TEST_OUTPUT_DIR environment variable is injected, and with lldb or
gdb additionally MIMode is the backend name and setupCommands is empty,
with the same environment injection. -/
theorem c5_build_configuration (platform exePath : Str) (args : List Json) (cwd : Json) :
    (createDebugConfig platform (detectDebugger platform exePath) exePath args cwd).name
        = str ("Debug ") ++ path_basename exePath
    ∧ (createDebugConfig platform (detectDebugger platform exePath) exePath args cwd).request
        = str ("launch")
    ∧ (createDebugConfig platform (detectDebugger platform exePath) exePath args cwd).type
        = detectDebugger platform exePath
    ∧ (createDebugConfig platform (detectDebugger platform exePath) exePath args cwd).program
        = exePath
    ∧ (createDebugConfig platform (detectDebugger platform exePath) exePath args cwd).args
        = args
    ∧ (createDebugConfig platform (detectDebugger platform exePath) exePath args cwd).cwd
        = cwd
    ∧ (createDebugConfig platform (detectDebugger platform exePath) exePath args cwd).stopAtEntry
        = false
    ∧ (detectDebugger platform exePath = str ("cppvsdbg") →
        (createDebugConfig platform (detectDebugger platform exePath) exePath args cwd).env
          = some [(str ("E2E_TEST_OUTPUT_DIR"), cwd)])
    ∧ ((detectDebugger platform exePath = str ("lldb")
          ∨ detectDebugger platform exePath = str ("gdb")) →
        (createDebugConfig platform (detectDebugger platform exePath) exePath args cwd).MIMode
          = some (detectDebugger platform exePath)
        ∧ (createDebugConfig platform (detectDebugger platform exePath) exePath args
            cwd).setupCommands = some []
        ∧ (createDebugConfig platform (detectDebugger platform exePath) exePath args cwd).env
          = some [(str ("E2E_TEST_OUTPUT_DIR"), cwd)]) := by
  by_cases h1 : platform = str ("win32")
  · subst h1
    have hd : detectDebugger (str ("win32")) exePath = str ("cppvsdbg") := by
      unfold detectDebugger
      rw [if_pos rfl]
    rw [hd]
    unfold createDebugConfig
    rw [if_pos ⟨rfl, rfl⟩]
    refine ⟨rfl, rfl, rfl, rfl, rfl, rfl, rfl, fun _ => rfl, fun hor => ?_⟩
    rcases hor with h | h <;> exact absurd h (by decide)
  · by_cases h2 : platform = str ("darwin")
    · subst h2
      have hd : detectDebugger (str ("darwin")) exePath = str ("lldb") := by
        unfold detectDebugger
        rw [if_neg (by decide), if_pos rfl]
      rw [hd]
      unfold createDebugConfig
      rw [if_neg (fun hc => absurd hc.1 (by decide)), if_pos (Or.inr rfl)]
      exact ⟨rfl, rfl, rfl, rfl, rfl, rfl, rfl, fun h => absurd h (by decide),
        fun _ => ⟨rfl, rfl, rfl⟩⟩
    · by_cases h3 : platform = str ("linux")
      · subst h3
        have hd : detectDebugger (str ("linux")) exePath = str ("gdb") := by
          unfold detectDebugger
          rw [if_neg (by decide), if_neg (by decide), if_pos rfl]
        rw [hd]
        unfold createDebugConfig
        rw [if_neg (fun hc => absurd hc.1 (by decide)), if_pos (Or.inl rfl)]
        exact ⟨rfl, rfl, rfl, rfl, rfl, rfl, rfl, fun h => absurd h (by decide),
          fun _ => ⟨rfl, rfl, rfl⟩⟩
      · have hd : detectDebugger platform exePath = str ("gdb") := by
          unfold detectDebugger
          rw [if_neg h1, if_neg h2, if_neg h3]
        rw [hd]
        unfold createDebugConfig
        rw [if_neg (fun hc => absurd hc.1 h1), if_pos (Or.inl rfl)]
        exact ⟨rfl, rfl, rfl, rfl, rfl, rfl, rfl, fun h => absurd h (by decide),
          fun _ => ⟨rfl, rfl, rfl⟩⟩

/-- C5 witness: the lldb-specific fields of the configuration built on
darwin at concrete request data. -/
theorem c5_build_configuration_witness :
    (createDebugConfig (str ("darwin")) (detectDebugger (str ("darwin")) (str ("/w/a")))
        (str ("/w/a")) [.str (str ("x"))] (.str (str ("/w")))).stopAtEntry = false
    ∧ (createDebugConfig (str ("darwin")) (detectDebugger (str ("darwin")) (str ("/w/a")))
        (str ("/w/a")) [.str (str ("x"))] (.str (str ("/w")))).MIMode
      = some (detectDebugger (str ("darwin")) (str ("/w/a")))
    ∧ (createDebugConfig (str ("darwin")) (detectDebugger (str ("darwin")) (str ("/w/a")))
        (str ("/w/a")) [.str (str ("x"))] (.str (str ("/w")))).env
      = some [(str ("E2E_TEST_OUTPUT_DIR"), .str (str ("/w")))] :=
  have h := c5_build_configuration (str ("darwin")) (str ("/w/a"))
    [.str (str ("x"))] (.str (str ("/w")))
  ⟨h.2.2.2.2.2.2.1,
   (h.2.2.2.2.2.2.2.2 (Or.inl (by decide))).1,
   (h.2.2.2.2.2.2.2.2 (Or.inl (by decide))).2.2⟩

/-- C6: If the resolved executable path does not exist in the
filesystem, the handler fails with ExecutableNotFound and zero
startDebugging calls are issued in that invocation; verification in the
source is fs.existsSync alone, so the model checks only path
existence - no permission-bit or binary-format test exists to model. -/
theorem c6_executable_not_found :
    (∀ (host : Host) (p : DebugPayload), ValidRequest p → host.workspaceOpen = true →
      resolveExePath p.exe p.cwd ∉ host.existingPaths →
      handleDebugUri host (some (encodeRequest p))
        = ⟨.error (.executableNotFound (resolveExePath p.exe p.cwd)), []⟩)
    ∧ (∀ (host : Host) (p64 : Option Str) (q : Str),
        (handleDebugUri host p64).outcome = .error (.executableNotFound q) →
        (handleDebugUri host p64).startCalls = []) := by
  constructor
  · intro host p hv hw hmem
    rw [handleDebugUri_encode host p hv hw]
    unfold handleResolved
    rw [if_neg hmem]
  · intro host p64 q h
    rcases handleDebugUri_startCalls host p64 with hc | ⟨cfg, hc, ho | ho⟩
    · exact hc
    · rw [h] at ho
      exact absurd ho (by simp)
    · rw [h] at ho
      simp at ho

/-- C6 witness: a request whose resolved path /w/app.exe is not among
the existing files fails with ExecutableNotFound and records zero
startDebugging calls. -/
theorem c6_executable_not_found_witness :
    handleDebugUri ⟨true, str ("linux"), [], true⟩
        (some (encodeRequest ⟨str ("app.exe"), [str ("a")], str ("/w")⟩))
      = ⟨.error (.executableNotFound (resolveExePath (str ("app.exe")) (str ("/w")))), []⟩
    ∧ (handleDebugUri ⟨true, str ("linux"), [], true⟩
        (some (encodeRequest ⟨str ("app.exe"), [str ("a")], str ("/w")⟩))).startCalls = [] :=
  have h := c6_executable_not_found
  ⟨h.1 ⟨true, str ("linux"), [], true⟩ ⟨str ("app.exe"), [str ("a")], str ("/w")⟩
      (by decide) rfl (by simp),
   h.2 ⟨true, str ("linux"), [], true⟩
      (some (encodeRequest ⟨str ("app.exe"), [str ("a")], str ("/w")⟩))
      (resolveExePath (str ("app.exe")) (str ("/w"))) (by rfl)⟩

/-- C8: Any failure of the handler produces exactly one user-visible
error notification carrying that failure; at most one configuration is
ever submitted to startDebugging per invocation; and the auto-continue
listener never raises a user-visible error - a failed continue request
is logged only. -/
theorem c8_error_propagation :
    (∀ (host : Host) (p64 : Option Str) (e : HandlerError),
      (handleDebugUri host p64).outcome = .error e →
      uriHandlerNotifications host p64 = [.errorNote e])
    ∧ (∀ (host : Host) (p64 : Option Str), (handleDebugUri host p64).startCalls.length ≤ 1)
    ∧ (∀ (e : Str) (acts : List ListenerAction), (runListener e initListener acts).notes = 0)
    ∧ (∀ (e : Str) (s : Session), s.program = e →
        (runListener e initListener
          [.sessionChanged (some s), .timerFire, .continueResolved false]).logs = 1) := by
  refine ⟨uriHandlerNotifications_error, fun host p64 => ?_,
    fun e acts => runListener_notes e acts initListener, fun e s hs => ?_⟩
  · rcases handleDebugUri_startCalls host p64 with hc | ⟨cfg, hc, _⟩ <;> simp [hc]
  · rw [runListener_single e s hs false]
    rfl

/-- C8 witness: the missing-payload failure shows exactly one error
notification carrying it; the same invocation submits no configuration;
a failed continue on the matching session is logged and the listener
machinery raises no user-visible error. -/
theorem c8_error_propagation_witness :
    uriHandlerNotifications ⟨true, str ("linux"), [], true⟩ none
      = [.errorNote .missingPayload]
    ∧ (handleDebugUri ⟨true, str ("linux"), [], true⟩ none).startCalls.length ≤ 1
    ∧ (runListener (str ("/w/a")) initListener
        [.sessionChanged (some ⟨1, str ("/w/a")⟩), .timerFire,
          .continueResolved false]).notes = 0
    ∧ (runListener (str ("/w/a")) initListener
        [.sessionChanged (some ⟨1, str ("/w/a")⟩), .timerFire,
          .continueResolved false]).logs = 1 :=
  ⟨c8_error_propagation.1 ⟨true, str ("linux"), [], true⟩ none .missingPayload rfl,
   c8_error_propagation.2.1 ⟨true, str ("linux"), [], true⟩ none,
   c8_error_propagation.2.2.1 (str ("/w/a"))
     [.sessionChanged (some ⟨1, str ("/w/a")⟩), .timerFire, .continueResolved false],
   c8_error_propagation.2.2.2 (str ("/w/a")) ⟨1, str ("/w/a")⟩ rfl⟩
